import Mathlib

/-!
Verification development for the confluence-docker offline image tools
(`scripts/download_images.py` and `scripts/import_images.py`).

Strings are modelled as `List Char`; the external environment (docker
daemon, filesystem) is modelled as a record of total functions, and the
external side effects that matter to the claims (network pulls, archive
writes) are tracked as an explicit action list.  The worker pool is
modelled by running the per-item tasks in an arbitrary completion order
(a permutation of the submitted work list), which over-approximates every
interleaving the thread pool can produce: the classification of each task
depends only on its own work item, and the harvest loop appends one
result per completed future.
-/

namespace ConfluenceDocker

/-- Strings of the Python program, as lists of characters. -/
abbrev Str := List Char

/-! ## String helpers shared by both scripts -/

/-- Python `s.replace(old, new)` for single-character patterns:
every occurrence of `old` is replaced. -/
def replaceChar (old new : Char) (s : Str) : Str :=
  s.map (fun c => if c = old then new else c)

/-- Python `s.replace(old, new, 1)` for single-character patterns:
only the first occurrence of `old` is replaced. -/
def replaceFirstChar (old new : Char) : Str → Str
  | [] => []
  | c :: cs => if c = old then new :: cs else c :: replaceFirstChar old new cs

/-- Python `p in s`-style check that `s` starts with `p`
(`str.startswith`). -/
def listStartsWith : Str → Str → Bool
  | [], _ => true
  | _ :: _, [] => false
  | p :: ps, s :: ss => p == s && listStartsWith ps ss

/-- Everything after the first `':'`, modelling `line.split(':', 1)[1]`
on a line known to contain a colon. -/
def afterFirstColon : Str → Str
  | [] => []
  | c :: cs => if c = ':' then cs else afterFirstColon cs

/-- Python `str.strip()`: drop whitespace from both ends. -/
def pyStrip (s : Str) : Str :=
  ((s.dropWhile Char.isWhitespace).reverse.dropWhile Char.isWhitespace).reverse

/-- Python `s.split('\n')`: `""` yields `[""]`, a trailing newline yields
a trailing empty line. -/
def splitLines : Str → List Str
  | [] => [[]]
  | c :: cs =>
    if c = '\n' then [] :: splitLines cs
    else
      match splitLines cs with
      | [] => [[c]]
      | l :: ls => (c :: l) :: ls

/-- Split at the first occurrence of `c`, modelling
`s.split(c, 1)` when it produces two parts. -/
def splitFirst (c : Char) : Str → Option (Str × Str)
  | [] => none
  | x :: xs =>
    if x = c then some ([], xs)
    else (splitFirst c xs).map (fun p => (x :: p.1, p.2))

/-- Python `pathlib.Path.stem`: the file name with its last suffix removed. -/
def pathStem (fname : Str) : Str :=
  if fname.contains '.' then
    ((fname.reverse.dropWhile (fun c => c ≠ '.')).drop 1).reverse
  else fname

/-! ## Export side: `DockerImageDownloader` -/

/-- How the downloader observes the outside world: docker-local image store,
pull results, and the file system of the output directory, plus the
per-future exception channel observed by the harvest loop
(the except clause of `download_images`).  All functions are total; a run
reads them but never updates them. -/
structure DownloadEnv where
  /-- Whether `docker image inspect` succeeds (`image_exists_locally`). -/
  localImages : Str → Bool
  /-- Whether `docker pull` returns exit code 0. -/
  pullOk : Str → Bool
  /-- Result of `tar_file.exists()` for a file name in the output directory. -/
  fileExists : Str → Bool
  /-- Result of `tar_file.stat().st_size`. -/
  fileSize : Str → Nat
  /-- Whether `docker save` returns exit code 0. -/
  saveOk : Str → Bool
  /-- Value `some msg` when the future for this image raises and the harvest
  loop catches the exception. -/
  raises : Str → Option Str

/-- External side effects of an export task that the idempotence claim
talks about: a network pull or an archive-file write. -/
inductive DockerAction where
  | pull (image : Str)
  | save (image : Str) (file : Str)
deriving DecidableEq

/-- Python `safe_name = image.replace(':', '-').replace('/', '_')`
(`save_image`, also used verbatim by `show_download_summary` and
`generate_manifest`). -/
def safeName (image : Str) : Str :=
  replaceChar '/' '_' (replaceChar ':' '-' image)

/-- The derived archive file name `f"{safe_name}.tar"`. -/
def tarFileName (image : Str) : Str :=
  safeName image ++ ".tar".data

/-- Model of `DockerImageDownloader.pull_image`: short-circuits to `True` when the
image is already local, otherwise performs `docker pull` and reports its
exit status.  The returned list records the external actions performed. -/
def pull_image (env : DownloadEnv) (image : Str) : Bool × List DockerAction :=
  if env.localImages image then (true, [])
  else (env.pullOk image, [DockerAction.pull image])

/-- Model of `DockerImageDownloader.save_image`: short-circuits to `True` when the
tar file already exists (no size check), otherwise streams `docker save`
into the file and reports its exit status (deleting the partial file on
failure).  The returned list records the external actions performed. -/
def save_image (env : DownloadEnv) (image : Str) : Bool × List DockerAction :=
  let tarFile := tarFileName image
  if env.fileExists tarFile then (true, [])
  else (env.saveOk image, [DockerAction.save image tarFile])

/-- Model of `DockerImageDownloader.download_and_save_image`: pull, then save only
if the pull succeeded; the item succeeds iff both steps succeeded. -/
def download_and_save_image (env : DownloadEnv) (image : Str) :
    (Str × Bool) × List DockerAction :=
  let p := pull_image env image
  if p.1 then
    let s := save_image env image
    ((image, s.1), p.2 ++ s.2)
  else ((image, false), p.2)

/-- How the harvest loop of `download_images` classifies one image: a
future that raised is recorded as failed, otherwise the boolean returned by
the task decides. -/
def downloadClassify (env : DownloadEnv) (image : Str) : Bool :=
  match env.raises image with
  | some _ => false
  | none => (download_and_save_image env image).1.2

/-- The diagnostic the harvest loop logs when a future raised:
`f"处理镜像 {image} 时发生异常: {e}"`. -/
def downExcMsg (image msg : Str) : Str :=
  "处理镜像 ".data ++ image ++ " 时发生异常: ".data ++ msg

/-- Final result collections of an export batch
(`downloaded_images` / `failed_images`). -/
structure DownloadSummary where
  downloaded : List Str
  failed : List Str
deriving DecidableEq

/-- One harvest step of `download_images`: append the image to the
collection its classification selects. -/
def downloadStep (env : DownloadEnv) (s : DownloadSummary) (image : Str) :
    DownloadSummary :=
  if downloadClassify env image then
    { s with downloaded := s.downloaded ++ [image] }
  else
    { s with failed := s.failed ++ [image] }

/-- Model of `DockerImageDownloader.download_images`, run over the completion
order of the futures. -/
def download_images (env : DownloadEnv) (order : List Str) : DownloadSummary :=
  order.foldl (downloadStep env) ⟨[], []⟩

/-! ## Manifest store -/

/-- One record of `images_manifest.json`. -/
structure ManifestEntry where
  name : Str
  file : Str
  size_bytes : Nat
deriving DecidableEq

/-- The whole side-car document. -/
structure Manifest where
  generated_at : Str
  total_images : Nat
  images : List ManifestEntry
deriving DecidableEq

/-- Model of `DockerImageDownloader.generate_manifest`: one entry per downloaded
image, with `size_bytes` the size obtained by stat when the tar file exists and
`0` otherwise. -/
def generate_manifest (env : DownloadEnv) (downloaded : List Str)
    (genAt : Str) : Manifest :=
  ⟨genAt, downloaded.length,
   downloaded.map (fun image =>
     let tf := tarFileName image
     ⟨image, tf, if env.fileExists tf then env.fileSize tf else 0⟩)⟩

/-- JSON values, at the level `json.dump` / `json.load` round-trips. -/
inductive Json where
  | str (s : Str)
  | num (n : Nat)
  | arr (xs : List Json)
  | obj (fields : List (Str × Json))

/-- Dictionary field access, as in `manifest.get(key)` and subscripting. -/
def Json.getField : Json → Str → Option Json
  | Json.obj fields, key => (fields.find? (fun kv => kv.1 == key)).map (fun kv => kv.2)
  | _, _ => none

/-- Serialization of one manifest entry, as written by
`generate_manifest`. -/
def entryToJson (e : ManifestEntry) : Json :=
  Json.obj [("name".data, Json.str e.name),
            ("file".data, Json.str e.file),
            ("size_bytes".data, Json.num e.size_bytes)]

/-- Serialization of the whole manifest document, as written by
`generate_manifest` via `json.dump`. -/
def manifestToJson (m : Manifest) : Json :=
  Json.obj [("generated_at".data, Json.str m.generated_at),
            ("total_images".data, Json.num m.total_images),
            ("images".data, Json.arr (m.images.map entryToJson))]

/-- Reading back the `{name, file, size_bytes}` fields of one entry, as
the import side accesses them. -/
def decodeEntry (j : Json) : Option ManifestEntry :=
  match j.getField "name".data, j.getField "file".data,
        j.getField "size_bytes".data with
  | some (Json.str n), some (Json.str f), some (Json.num s) => some ⟨n, f, s⟩
  | _, _, _ => none

/-- Decode a list of entries, failing if any entry is malformed. -/
def decodeEntries : List Json → Option (List ManifestEntry)
  | [] => some []
  | j :: js =>
    match decodeEntry j, decodeEntries js with
    | some e, some es => some (e :: es)
    | _, _ => none

/-- Model of `DockerImageImporter.load_manifest` composed with `json.load`:
recover the manifest document from its JSON form. -/
def load_manifest (j : Json) : Option Manifest :=
  match j.getField "generated_at".data, j.getField "total_images".data,
        j.getField "images".data with
  | some (Json.str g), some (Json.num t), some (Json.arr xs) =>
    match decodeEntries xs with
    | some es => some ⟨g, t, es⟩
    | none => none
  | _, _, _ => none

/-! ## Import side: `DockerImageImporter` -/

/-- How the importer observes the outside world: the archive directory and
the docker daemon, plus the per-task exception channel (the `try` of
`import_single_image` and the harvest `except` of `import_images`,
collapsed into one source).  `loadStderr` is the raw stderr text of
`docker load --input`; `quietLoadOk`/`quietLoadStderr` describe the
separate `docker load --input … --quiet` invocation made by
`get_image_name_from_tar`. -/
structure ImportEnv where
  /-- Result of `tar_file.exists()`. -/
  fileExists : Str → Bool
  /-- Result of `tar_file.stat().st_size`. -/
  fileSize : Str → Nat
  /-- Whether `docker load --input tar_file` returns exit code 0. -/
  loadOk : Str → Bool
  /-- stderr text captured from `docker load --input tar_file`. -/
  loadStderr : Str → Str
  /-- Value `some msg` when processing this file raises an exception. -/
  raises : Str → Option Str
  /-- Whether `docker load --input tar_file --quiet` returns exit code 0. -/
  quietLoadOk : Str → Bool
  /-- stderr text captured from the `--quiet` invocation. -/
  quietLoadStderr : Str → Str

/-- Scan the runtime stderr for the first line starting with
`Loaded image:` and return the trimmed text after its first colon
(`line.split(':', 1)[1].strip()`); `none` when no such line exists. -/
def parseLoadedName (stderr : Str) : Option Str :=
  match (splitLines stderr).find? (fun l => listStartsWith "Loaded image:".data l) with
  | some l => some (pyStrip (afterFirstColon l))
  | none => none

/-- The diagnostic built by the except clause of `import_single_image`:
`f"导入异常: {e}"`. -/
def excMsg (msg : Str) : Str :=
  "导入异常: ".data ++ msg

/-- Model of `DockerImageImporter.import_single_image`: existence and size
prechecks, then `docker load`; returns
`(resolved name or file, success, error message)`.  The `force`
parameter is accepted but never read. -/
def import_single_image (env : ImportEnv) (tarFile : Str) (force : Bool) :
    Str × Bool × Str :=
  match env.raises tarFile with
  | some e => (tarFile, false, excMsg e)
  | none =>
    if env.fileExists tarFile = false then
      (tarFile, false, "文件不存在: ".data ++ tarFile)
    else if env.fileSize tarFile = 0 then
      (tarFile, false, "文件为空: ".data ++ tarFile)
    else if env.loadOk tarFile then
      ((parseLoadedName (env.loadStderr tarFile)).getD "unknown".data, true, [])
    else
      (tarFile, false, "导入失败: ".data ++ env.loadStderr tarFile)

/-- Model of `DockerImageImporter.get_image_name_from_tar`: first the filename
heuristic (stem containing both `'_'` and `'-'`: split at the first
underscore, turn the first dash of the remainder into a colon), and
otherwise a `docker load --quiet` probe whose stderr is parsed the same
way as a normal load. -/
def get_image_name_from_tar (env : ImportEnv) (tarFile : Str) : Option Str :=
  let filename := pathStem tarFile
  if filename.contains '_' && filename.contains '-' then
    match splitFirst '_' filename with
    | some (ns, rest) => some (ns ++ '/' :: replaceFirstChar '-' ':' rest)
    | none => none
  else if env.quietLoadOk tarFile then
    parseLoadedName (env.quietLoadStderr tarFile)
  else none

/-- Final result collections of an import batch
(`imported_images` / `failed_imports` / `skipped_images`). -/
structure ImportSummary where
  imported : List Str
  failedFiles : List (Str × Str)
  skipped : List Str
deriving DecidableEq

/-- One harvest step of `import_images`: a successful task contributes
its resolved image name to `imported`, a failed one contributes the file
path and error message to `failedFiles`. -/
def importStep (env : ImportEnv) (force : Bool) (s : ImportSummary)
    (tarFile : Str) : ImportSummary :=
  let r := import_single_image env tarFile force
  if r.2.1 then { s with imported := s.imported ++ [r.1] }
  else { s with failedFiles := s.failedFiles ++ [(tarFile, r.2.2)] }

/-- Model of `DockerImageImporter.import_images`, run over the completion order
of the futures. -/
def import_images (env : ImportEnv) (order : List Str) (force : Bool) :
    ImportSummary :=
  order.foldl (importStep env force) ⟨[], [], []⟩

/-! ## The two `main` entry points -/

/-- The manifest cross-check of the import `main`: file names recorded
in the manifest but not found on disk, and files found on disk but not
recorded — both only logged as warnings. -/
def manifestWarnings (manifest : Option Manifest) (foundFiles : List Str) :
    List Str × List Str :=
  match manifest with
  | none => ([], [])
  | some m =>
    let mfiles := m.images.map ManifestEntry.file
    (mfiles.filter (fun f => !(foundFiles.contains f)),
     foundFiles.filter (fun f => !(mfiles.contains f)))

/-- Model of the `main` of `download_images.py` after argument parsing: exit 1 when
docker is unusable or the resolved image list is empty; otherwise run
the batch, optionally generate the manifest (which never feeds back into
the exit code), and exit 0 iff no image failed. -/
def download_main (env : DownloadEnv) (dockerOk : Bool) (images : List Str)
    (noManifest : Bool) (genAt : Str) : Nat :=
  if dockerOk = false then 1
  else if images.isEmpty then 1
  else
    let s := download_images env images
    let _m :=
      if noManifest = false && s.downloaded.isEmpty = false then
        some (generate_manifest env s.downloaded genAt)
      else none
    if s.failed.isEmpty then 0 else 1

/-- Model of the `main` of `import_images.py` after argument parsing: exit 1 when
docker is unusable or no tar files were found; otherwise optionally
cross-check the manifest (warnings only), run the batch (the cleanup and
listing flags trigger extra docker calls but never feed back), and exit
0 iff no file failed to import. -/
def import_main (env : ImportEnv) (dockerOk : Bool) (tarFiles : List Str)
    (force noVerify cleanup listFlag : Bool) (manifest : Option Manifest) :
    Nat :=
  if dockerOk = false then 1
  else if tarFiles.isEmpty then 1
  else
    let _w := if noVerify then ([], []) else manifestWarnings manifest tarFiles
    let _c := cleanup
    let _l := listFlag
    if (import_images env tarFiles force).failedFiles.isEmpty then 0 else 1

/-! ## Runner characterization lemmas -/

lemma download_foldl (env : DownloadEnv) (order : List Str) (a b : List Str) :
    order.foldl (downloadStep env) ⟨a, b⟩ =
      ⟨a ++ order.filter (downloadClassify env),
       b ++ order.filter (fun i => !(downloadClassify env i))⟩ := by
  induction order generalizing a b with
  | nil => simp
  | cons x xs ih =>
    by_cases h : downloadClassify env x <;>
      simp [downloadStep, h, ih, List.filter_cons, List.append_assoc]

/-- The export batch partitions the completion order by the per-item
classification. -/
lemma download_images_eq (env : DownloadEnv) (order : List Str) :
    download_images env order =
      ⟨order.filter (downloadClassify env),
       order.filter (fun i => !(downloadClassify env i))⟩ := by
  simpa [download_images] using download_foldl env order [] []

/-- Success bit of one import task. -/
def importOk (env : ImportEnv) (force : Bool) (tarFile : Str) : Bool :=
  (import_single_image env tarFile force).2.1

/-- Resolved image name of one import task. -/
def importName (env : ImportEnv) (force : Bool) (tarFile : Str) : Str :=
  (import_single_image env tarFile force).1

/-- Error message of one import task. -/
def importErr (env : ImportEnv) (force : Bool) (tarFile : Str) : Str :=
  (import_single_image env tarFile force).2.2

lemma import_foldl (env : ImportEnv) (force : Bool) (order : List Str)
    (a : List Str) (b : List (Str × Str)) (c : List Str) :
    order.foldl (importStep env force) ⟨a, b, c⟩ =
      ⟨a ++ (order.filter (importOk env force)).map (importName env force),
       b ++ (order.filter (fun t => !(importOk env force t))).map
              (fun t => (t, importErr env force t)),
       c⟩ := by
  induction order generalizing a b with
  | nil => simp
  | cons x xs ih =>
    cases hh : (import_single_image env x force).2.1 <;>
      simp [importStep, importOk, importName, importErr, hh, ih,
            List.filter_cons, List.append_assoc]

/-- The import batch partitions the completion order by the per-item
classification; nothing is ever classified skipped. -/
lemma import_images_eq (env : ImportEnv) (order : List Str) (force : Bool) :
    import_images env order force =
      ⟨(order.filter (importOk env force)).map (importName env force),
       (order.filter (fun t => !(importOk env force t))).map
         (fun t => (t, importErr env force t)),
       []⟩ := by
  simpa [import_images] using import_foldl env force order [] [] []

lemma length_filter_partition (p : Str → Bool) (l : List Str) :
    (l.filter p).length + (l.filter (fun i => !(p i))).length = l.length := by
  induction l with
  | nil => simp
  | cons x xs ih =>
    by_cases h : p x <;> simp [List.filter_cons, h] <;> omega

lemma count_filter_partition (p : Str → Bool) (l : List Str) (x : Str) :
    (l.filter p).count x + (l.filter (fun i => !(p i))).count x = l.count x := by
  induction l with
  | nil => simp
  | cons y ys ih =>
    by_cases h : p y
    · rw [List.filter_cons_of_pos (by simpa using h),
          List.filter_cons_of_neg (by simpa using h)]
      rcases eq_or_ne x y with rfl | hxy
      · simp only [List.count_cons_self]; omega
      · rw [List.count_cons_of_ne hxy, List.count_cons_of_ne hxy]; omega
    · rw [List.filter_cons_of_neg (by simpa using h),
          List.filter_cons_of_pos (by simpa using h)]
      rcases eq_or_ne x y with rfl | hxy
      · simp only [List.count_cons_self]; omega
      · rw [List.count_cons_of_ne hxy, List.count_cons_of_ne hxy]; omega

/-! ## String-replacement lemmas -/

lemma replaceChar_append (o n : Char) (a b : Str) :
    replaceChar o n (a ++ b) = replaceChar o n a ++ replaceChar o n b := by
  simp [replaceChar]

lemma replaceChar_cons (o n c : Char) (s : Str) :
    replaceChar o n (c :: s) = (if c = o then n else c) :: replaceChar o n s := rfl

lemma replaceChar_of_not_mem (o n : Char) (s : Str) (h : o ∉ s) :
    replaceChar o n s = s := by
  induction s with
  | nil => rfl
  | cons c cs ih =>
    have h1 : ¬ c = o := by
      intro hc; exact h (by simp [hc])
    have h2 : o ∉ cs := by
      intro hm; exact h (by simp [hm])
    rw [replaceChar_cons, if_neg h1, ih h2]

lemma replaceFirstChar_append_of_not_mem (o n : Char) (a b : Str) (h : o ∉ a) :
    replaceFirstChar o n (a ++ b) = a ++ replaceFirstChar o n b := by
  induction a with
  | nil => rfl
  | cons c cs ih =>
    have h1 : ¬ c = o := by
      intro hc; exact h (by simp [hc])
    have h2 : o ∉ cs := by
      intro hm; exact h (by simp [hm])
    simp only [List.cons_append, replaceFirstChar, if_neg h1, List.append_eq, ih h2]

lemma replaceFirstChar_cons_self (o n : Char) (s : Str) :
    replaceFirstChar o n (o :: s) = n :: s := by
  simp [replaceFirstChar]

/-! ## Manifest round-trip lemmas -/

lemma decodeEntry_entryToJson (e : ManifestEntry) :
    decodeEntry (entryToJson e) = some e := rfl

lemma decodeEntries_map (es : List ManifestEntry) :
    decodeEntries (es.map entryToJson) = some es := by
  induction es with
  | nil => rfl
  | cons e es ih => simp [decodeEntries, decodeEntry_entryToJson, ih]

lemma load_manifest_roundTrip (m : Manifest) :
    load_manifest (manifestToJson m) = some m := by
  have h : load_manifest (manifestToJson m)
      = match decodeEntries (m.images.map entryToJson) with
        | some es => some ⟨m.generated_at, m.total_images, es⟩
        | none => none := rfl
  rw [h, decodeEntries_map]

/-! ## Concrete environments for instantiations -/

/-- A fully healthy export environment: every image local, every docker
call succeeds, every archive present with positive size, no exceptions. -/
def happyDownloadEnv : DownloadEnv :=
  ⟨fun _ => true, fun _ => true, fun _ => true, fun _ => 5, fun _ => true,
   fun _ => none⟩

/-- A fully healthy import environment whose `docker load` stderr carries
a `Loaded image:` line. -/
def happyImportEnv : ImportEnv :=
  ⟨fun _ => true, fun _ => 7, fun _ => true,
   fun _ => "Loaded image: mysql:8.0\n".data, fun _ => none,
   fun _ => false, fun _ => []⟩

/-! ## Claim theorems -/

/-- C1: For every run of either batch runner, the process exits with
code 0 if and only if the run completed (docker usable, non-empty work
set) with zero items in the failed set; otherwise it exits 1, and the
exit code is independent of the manifest flags, the manifest content,
the cleanup/list flags and the (always empty) skipped count. -/
theorem exit_code_contract (denv : DownloadEnv) (ienv : ImportEnv)
    (dockerOk : Bool) (images tarFiles : List Str)
    (noManifest force noVerify cleanup listFlag : Bool) (genAt : Str)
    (manifest : Option Manifest) :
    (download_main denv dockerOk images noManifest genAt = 0 ↔
       dockerOk = true ∧ images ≠ [] ∧
         (download_images denv images).failed = []) ∧
    (download_main denv dockerOk images noManifest genAt = 0 ∨
       download_main denv dockerOk images noManifest genAt = 1) ∧
    (import_main ienv dockerOk tarFiles force noVerify cleanup listFlag
        manifest = 0 ↔
       dockerOk = true ∧ tarFiles ≠ [] ∧
         (import_images ienv tarFiles force).failedFiles = []) ∧
    (import_main ienv dockerOk tarFiles force noVerify cleanup listFlag
        manifest = 0 ∨
       import_main ienv dockerOk tarFiles force noVerify cleanup listFlag
        manifest = 1) := by
  refine ⟨?_, ?_, ?_, ?_⟩
  · cases dockerOk with
    | false => simp [download_main]
    | true =>
      by_cases hi : images.isEmpty
      · have hi' := List.isEmpty_iff.mp hi
        simp [download_main, hi, hi']
      · have hi' : images ≠ [] := by
          intro h; rw [h] at hi; simp at hi
        by_cases hf : (download_images denv images).failed.isEmpty
        · have hf' := List.isEmpty_iff.mp hf
          simp [download_main, hi, hi', hf, hf']
        · have hf' : (download_images denv images).failed ≠ [] := by
            intro h; rw [h] at hf; simp at hf
          simp [download_main, hi, hi', hf, hf']
  · cases dockerOk with
    | false => simp [download_main]
    | true =>
      by_cases hi : images.isEmpty
      · simp [download_main, hi]
      · by_cases hf : (download_images denv images).failed.isEmpty <;>
          simp [download_main, hi, hf]
  · cases dockerOk with
    | false => simp [import_main]
    | true =>
      by_cases hi : tarFiles.isEmpty
      · have hi' := List.isEmpty_iff.mp hi
        simp [import_main, hi, hi']
      · have hi' : tarFiles ≠ [] := by
          intro h; rw [h] at hi; simp at hi
        by_cases hf : (import_images ienv tarFiles force).failedFiles.isEmpty
        · have hf' := List.isEmpty_iff.mp hf
          simp [import_main, hi, hi', hf, hf']
        · have hf' : (import_images ienv tarFiles force).failedFiles ≠ [] := by
            intro h; rw [h] at hf; simp at hf
          simp [import_main, hi, hi', hf, hf']
  · cases dockerOk with
    | false => simp [import_main]
    | true =>
      by_cases hi : tarFiles.isEmpty
      · simp [import_main, hi]
      · by_cases hf : (import_images ienv tarFiles force).failedFiles.isEmpty <;>
          simp [import_main, hi, hf]

/-- C3: when the image is already local and the destination archive
already exists and is non-empty, the export task performs no pull and no
archive write, and still reports the item as succeeded. -/
theorem save_short_circuit (env : DownloadEnv) (image : Str)
    (hLocal : env.localImages image = true)
    (hFile : env.fileExists (tarFileName image) = true)
    (hSize : 0 < env.fileSize (tarFileName image))
    (hNoExc : env.raises image = none) :
    download_and_save_image env image = ((image, true), []) ∧
    downloadClassify env image = true := by
  have hp : pull_image env image = (true, []) := by
    simp [pull_image, hLocal]
  have hs : save_image env image = (true, []) := by
    simp [save_image, hFile]
  constructor
  · simp [download_and_save_image, hp, hs]
  · simp [downloadClassify, hNoExc, download_and_save_image, hp, hs]

theorem save_short_circuit_witness :
    happyDownloadEnv.localImages "mysql:8.0".data = true ∧
    happyDownloadEnv.fileExists (tarFileName "mysql:8.0".data) = true ∧
    0 < happyDownloadEnv.fileSize (tarFileName "mysql:8.0".data) ∧
    happyDownloadEnv.raises "mysql:8.0".data = none ∧
    (download_and_save_image happyDownloadEnv "mysql:8.0".data
        = (("mysql:8.0".data, true), []) ∧
     downloadClassify happyDownloadEnv "mysql:8.0".data = true) :=
  ⟨rfl, rfl, by decide, rfl,
   save_short_circuit happyDownloadEnv "mysql:8.0".data rfl rfl (by decide) rfl⟩

/-- C5: an image reference `namespace/repo:tag` (each segment free of
`'/'` and `':'`) maps to the archive file name `namespace_repo-tag.tar`,
and on such references the replace-all substitution of the code agrees with
replacing only the first `'/'` and only the first `':'`. -/
theorem archive_filename (ns repo tag : Str)
    (hns1 : '/' ∉ ns) (hns2 : ':' ∉ ns)
    (hr1 : '/' ∉ repo) (hr2 : ':' ∉ repo)
    (ht1 : '/' ∉ tag) (ht2 : ':' ∉ tag) :
    tarFileName (ns ++ '/' :: repo ++ ':' :: tag)
      = ns ++ '_' :: repo ++ '-' :: (tag ++ ".tar".data) ∧
    safeName (ns ++ '/' :: repo ++ ':' :: tag)
      = replaceFirstChar ':' '-'
          (replaceFirstChar '/' '_' (ns ++ '/' :: repo ++ ':' :: tag)) := by
  have s1 : replaceChar ':' '-' (ns ++ '/' :: repo ++ ':' :: tag)
      = ns ++ '/' :: repo ++ '-' :: tag := by
    rw [replaceChar_append, replaceChar_cons, replaceChar_append,
        replaceChar_cons, replaceChar_of_not_mem _ _ _ hns2,
        replaceChar_of_not_mem _ _ _ hr2, replaceChar_of_not_mem _ _ _ ht2,
        if_neg (by decide : ¬ ('/' : Char) = ':'), if_pos rfl]
  have s2 : replaceChar '/' '_' (ns ++ '/' :: repo ++ '-' :: tag)
      = ns ++ '_' :: repo ++ '-' :: tag := by
    rw [replaceChar_append, replaceChar_cons, replaceChar_append,
        replaceChar_cons, replaceChar_of_not_mem _ _ _ hns1,
        replaceChar_of_not_mem _ _ _ hr1, replaceChar_of_not_mem _ _ _ ht1,
        if_neg (by decide : ¬ ('-' : Char) = '/'), if_pos rfl]
  have hmem : ':' ∉ ns ++ '_' :: repo := by
    intro hm
    rcases List.mem_append.mp hm with h' | h'
    · exact hns2 h'
    · rcases List.mem_cons.mp h' with h'' | h''
      · exact absurd h'' (by decide)
      · exact hr2 h''
  have rf : replaceFirstChar ':' '-'
        (replaceFirstChar '/' '_' (ns ++ '/' :: repo ++ ':' :: tag))
      = ns ++ '_' :: repo ++ '-' :: tag := by
    simp only [List.append_assoc, List.cons_append]
    rw [replaceFirstChar_append_of_not_mem _ _ _ _ hns1,
        replaceFirstChar_cons_self]
    rw [show ns ++ '_' :: (repo ++ ':' :: tag)
          = (ns ++ '_' :: repo) ++ ':' :: tag by simp]
    rw [replaceFirstChar_append_of_not_mem _ _ _ _ hmem,
        replaceFirstChar_cons_self]
    simp
  constructor
  · rw [tarFileName, safeName, s1, s2]
    simp
  · rw [safeName, s1, s2, rf]

theorem archive_filename_witness :
    ('/' ∉ "haxqer".data ∧ ':' ∉ "haxqer".data ∧
     '/' ∉ "confluence".data ∧ ':' ∉ "confluence".data ∧
     '/' ∉ "9.2.1".data ∧ ':' ∉ "9.2.1".data) ∧
    tarFileName "haxqer/confluence:9.2.1".data
      = "haxqer_confluence-9.2.1.tar".data := by
  refine ⟨by decide, ?_⟩
  have h := (archive_filename "haxqer".data "confluence".data "9.2.1".data
    (by decide) (by decide) (by decide) (by decide) (by decide) (by decide)).1
  have e1 : "haxqer/confluence:9.2.1".data
      = "haxqer".data ++ '/' :: "confluence".data ++ ':' :: "9.2.1".data := by
    decide
  have e2 : "haxqer_confluence-9.2.1.tar".data
      = "haxqer".data ++ '_' :: "confluence".data
          ++ '-' :: ("9.2.1".data ++ ".tar".data) := by
    decide
  rw [e1, e2]
  exact h

/-- C9: the force-reimport flag changes nothing: the task result, the
whole batch summary and the process exit code are identical for any two
values of the flag. -/
theorem force_flag_inert (env : ImportEnv) (tarFile : Str) (order : List Str)
    (dockerOk noVerify cleanup listFlag : Bool) (manifest : Option Manifest)
    (f1 f2 : Bool) :
    import_single_image env tarFile f1 = import_single_image env tarFile f2 ∧
    import_images env order f1 = import_images env order f2 ∧
    import_main env dockerOk order f1 noVerify cleanup listFlag manifest
      = import_main env dockerOk order f2 noVerify cleanup listFlag manifest :=
  ⟨rfl, rfl, rfl⟩

/-- C10: no code path of the import runner classifies an item as
skipped: the skipped collection of every final summary is empty, so the
summary always reports 0 skipped items. -/
theorem no_skipped_imports (env : ImportEnv) (order : List Str) (force : Bool) :
    (import_images env order force).skipped = [] ∧
    (import_images env order force).skipped.length = 0 := by
  rw [import_images_eq]
  exact ⟨rfl, rfl⟩

/-- C2: a batch of N work items run with pool width W ≤ N produces
exactly N results, and each work item contributes to exactly one of the
final collections (downloaded/failed for export; imported/failed/skipped
for import, skipped being empty), for every completion order, i.e. every
permutation of the submitted work list. -/
theorem batch_partition (denv : DownloadEnv) (ienv : ImportEnv)
    (dItems dOrder iItems iOrder : List Str) (W WI : Nat) (force : Bool)
    (hdPerm : dOrder.Perm dItems) (hW : W ≤ dItems.length)
    (hiPerm : iOrder.Perm iItems) (hWI : WI ≤ iItems.length) :
    ((download_images denv dOrder).downloaded.length
        + (download_images denv dOrder).failed.length = dItems.length
      ∧ ∀ x : Str, (download_images denv dOrder).downloaded.count x
        + (download_images denv dOrder).failed.count x = dItems.count x)
    ∧ ((import_images ienv iOrder force).imported.length
        + (import_images ienv iOrder force).failedFiles.length
        + (import_images ienv iOrder force).skipped.length = iItems.length
      ∧ (import_images ienv iOrder force).imported
        = (iOrder.filter (importOk ienv force)).map (importName ienv force)
      ∧ (import_images ienv iOrder force).failedFiles.map Prod.fst
        = iOrder.filter (fun t => !(importOk ienv force t))
      ∧ (import_images ienv iOrder force).skipped = []
      ∧ ∀ x : Str, (iOrder.filter (importOk ienv force)).count x
        + (iOrder.filter (fun t => !(importOk ienv force t))).count x
        = iItems.count x) := by
  rw [download_images_eq, import_images_eq]
  refine ⟨⟨?_, ?_⟩, ?_, rfl, ?_, rfl, ?_⟩
  · rw [← hdPerm.length_eq]
    exact length_filter_partition _ _
  · intro x
    have hc : dOrder.count x = dItems.count x := hdPerm.countP_eq _
    rw [← hc]
    exact count_filter_partition _ _ _
  · simp only [List.length_map, List.length_nil, Nat.add_zero]
    rw [← hiPerm.length_eq]
    exact length_filter_partition _ _
  · rw [List.map_map]
    have h : (Prod.fst ∘ fun t => (t, importErr ienv force t))
        = fun t : Str => t := rfl
    rw [h, List.map_id']
  · intro x
    have hc : iOrder.count x = iItems.count x := hiPerm.countP_eq _
    rw [← hc]
    exact count_filter_partition _ _ _

theorem batch_partition_witness :
    ((["mysql:8.0".data] : List Str).Perm ["mysql:8.0".data]
      ∧ 1 ≤ (["mysql:8.0".data] : List Str).length
      ∧ (["a.tar".data] : List Str).Perm ["a.tar".data]
      ∧ 1 ≤ (["a.tar".data] : List Str).length)
    ∧ (download_images happyDownloadEnv ["mysql:8.0".data]).downloaded.length
        + (download_images happyDownloadEnv ["mysql:8.0".data]).failed.length
        = 1
    ∧ (import_images happyImportEnv ["a.tar".data] false).imported.length
        + (import_images happyImportEnv ["a.tar".data] false).failedFiles.length
        + (import_images happyImportEnv ["a.tar".data] false).skipped.length
        = 1
    ∧ (download_images happyDownloadEnv
          ["mysql:8.0".data]).downloaded.count "mysql:8.0".data
        + (download_images happyDownloadEnv
          ["mysql:8.0".data]).failed.count "mysql:8.0".data = 1 := by
  have h := batch_partition happyDownloadEnv happyImportEnv
      ["mysql:8.0".data] ["mysql:8.0".data] ["a.tar".data] ["a.tar".data]
      1 1 false (List.Perm.refl _) (by decide) (List.Perm.refl _) (by decide)
  refine ⟨⟨List.Perm.refl _, by decide, List.Perm.refl _, by decide⟩,
    ?_, ?_, ?_⟩
  · simpa using h.1.1
  · simpa using h.2.1
  · simpa using h.1.2 "mysql:8.0".data

/-- Export environment reaching the C4 counterexample: the archive file
already exists but is empty (size 0), and the image is local, so the
item succeeds without the archive ever being rewritten and its entry
lands in the manifest with `size_bytes = 0`. -/
def emptyTarEnv : DownloadEnv :=
  ⟨fun _ => true, fun _ => true, fun _ => true, fun _ => 0, fun _ => true,
   fun _ => none⟩

/-- C4 counterexample: the manifest can be written with an entry
whose archive file is empty (size 0) at write time — `generate_manifest`
confirms neither existence nor non-emptiness, it merely stats the size
(recording 0 for a missing file). -/
theorem manifest_unverified_entry_cex :
    (download_images emptyTarEnv ["mysql:8.0".data]).downloaded
      = ["mysql:8.0".data] ∧
    (generate_manifest emptyTarEnv
        (download_images emptyTarEnv ["mysql:8.0".data]).downloaded
        "2025".data).images
      = [⟨"mysql:8.0".data, "mysql-8.0.tar".data, 0⟩] ∧
    emptyTarEnv.fileExists "mysql-8.0.tar".data = true ∧
    emptyTarEnv.fileSize "mysql-8.0.tar".data = 0 := by
  decide

/-- C4 (amended): whenever the manifest is written, every entry
corresponds to a succeeded image and its derived archive file name, and
records the on-disk size of the file at write time when the file exists and
`0` when it is missing; existence and non-emptiness are not verified. -/
theorem generate_manifest_entries (env : DownloadEnv) (downloaded : List Str)
    (genAt : Str) (e : ManifestEntry)
    (he : e ∈ (generate_manifest env downloaded genAt).images) :
    e.name ∈ downloaded ∧
    e.file = tarFileName e.name ∧
    e.size_bytes
      = (if env.fileExists e.file then env.fileSize e.file else 0) ∧
    (env.fileExists e.file = false → e.size_bytes = 0) := by
  simp only [generate_manifest] at he
  rcases List.mem_map.mp he with ⟨img, himg, rfl⟩
  refine ⟨himg, rfl, rfl, ?_⟩
  intro h
  simp [h]

theorem generate_manifest_entries_witness :
    (⟨"mysql:8.0".data, "mysql-8.0.tar".data, 0⟩ : ManifestEntry)
        ∈ (generate_manifest emptyTarEnv ["mysql:8.0".data]
            "2025".data).images ∧
    ("mysql:8.0".data ∈ (["mysql:8.0".data] : List Str) ∧
     ("mysql-8.0.tar".data : Str) = tarFileName "mysql:8.0".data ∧
     (0 : Nat) = (if emptyTarEnv.fileExists "mysql-8.0.tar".data
         then emptyTarEnv.fileSize "mysql-8.0.tar".data else 0) ∧
     (emptyTarEnv.fileExists "mysql-8.0.tar".data = false → (0 : Nat) = 0)) := by
  refine ⟨by decide, ?_⟩
  exact generate_manifest_entries emptyTarEnv ["mysql:8.0".data] "2025".data
    ⟨"mysql:8.0".data, "mysql-8.0.tar".data, 0⟩ (by decide)

/-- Import environment for the C6 counterexample: the load succeeds but
the docker stderr carries no `Loaded image:` line. -/
def silentLoadEnv : ImportEnv :=
  ⟨fun _ => true, fun _ => 7, fun _ => true, fun _ => [], fun _ => none,
   fun _ => false, fun _ => []⟩

/-- C6 counterexample: when parsing the runtime success message
fails, the resolved name of the import task is the constant `"unknown"`, not
the filename-derived guess — which the helper `get_image_name_from_tar`
would have produced but which `import_single_image` never consults. -/
theorem loaded_name_fallback_cex :
    import_single_image silentLoadEnv "haxqer_confluence-9.2.1.tar".data false
      = ("unknown".data, true, []) ∧
    get_image_name_from_tar silentLoadEnv "haxqer_confluence-9.2.1.tar".data
      = some "haxqer/confluence:9.2.1".data ∧
    ("unknown".data : Str) ≠ "haxqer/confluence:9.2.1".data := by
  decide

/-- C6 (amended): for every archive load whose runtime invocation
succeeds, the resolved image name is parsed out of the runtime
`Loaded image:` success message, and when that parsing fails the result
falls back to the constant `"unknown"` (not a filename-derived guess). -/
theorem loaded_name_resolution (env : ImportEnv) (tarFile : Str) (force : Bool)
    (hExc : env.raises tarFile = none)
    (hEx : env.fileExists tarFile = true)
    (hSz : env.fileSize tarFile ≠ 0)
    (hOk : env.loadOk tarFile = true) :
    import_single_image env tarFile force
      = ((parseLoadedName (env.loadStderr tarFile)).getD "unknown".data,
         true, []) ∧
    (∀ nm : Str, parseLoadedName (env.loadStderr tarFile) = some nm →
      (import_single_image env tarFile force).1 = nm) ∧
    (parseLoadedName (env.loadStderr tarFile) = none →
      (import_single_image env tarFile force).1 = "unknown".data) := by
  have h : import_single_image env tarFile force
      = ((parseLoadedName (env.loadStderr tarFile)).getD "unknown".data,
         true, []) := by
    simp [import_single_image, hExc, hEx, hSz, hOk]
  refine ⟨h, ?_, ?_⟩
  · intro nm hp
    rw [h]
    simp [hp]
  · intro hp
    rw [h]
    simp [hp]

theorem loaded_name_resolution_witness :
    happyImportEnv.raises "a.tar".data = none ∧
    happyImportEnv.fileExists "a.tar".data = true ∧
    happyImportEnv.fileSize "a.tar".data ≠ 0 ∧
    happyImportEnv.loadOk "a.tar".data = true ∧
    import_single_image happyImportEnv "a.tar".data false
      = ((parseLoadedName (happyImportEnv.loadStderr "a.tar".data)).getD
           "unknown".data, true, []) ∧
    parseLoadedName (happyImportEnv.loadStderr "a.tar".data)
      = some "mysql:8.0".data := by
  refine ⟨rfl, rfl, by decide, rfl, ?_, by decide⟩
  exact (loaded_name_resolution happyImportEnv "a.tar".data false rfl rfl
    (by decide) rfl).1

/-- Export environment where exactly the image `"bad"` raises. -/
def raisingDownloadEnv : DownloadEnv :=
  ⟨fun _ => true, fun _ => true, fun _ => true, fun _ => 5, fun _ => true,
   fun x => if x = "bad".data then some "boom".data else none⟩

/-- Import environment where exactly the file `"bad.tar"` raises. -/
def raisingImportEnv : ImportEnv :=
  ⟨fun _ => true, fun _ => 7, fun _ => true,
   fun _ => "Loaded image: mysql:8.0\n".data,
   fun x => if x = "bad.tar".data then some "boom".data else none,
   fun _ => false, fun _ => []⟩

/-- C7: a per-task exception is caught and converted into a failed
result with a non-empty diagnostic, all N results are still produced,
and the classification of every other work item is unchanged — the
runner never aborts early. -/
theorem exception_isolation (denv : DownloadEnv) (ienv : ImportEnv)
    (dOrder iOrder : List Str) (force : Bool) (dk ik de ie : Str)
    (hdr : denv.raises = fun x => if x = dk then some de else none)
    (hir : ienv.raises = fun x => if x = ik then some ie else none)
    (hdk : dk ∈ dOrder) (hik : ik ∈ iOrder) :
    ((import_images ienv iOrder force).imported.length
        + (import_images ienv iOrder force).failedFiles.length
        + (import_images ienv iOrder force).skipped.length = iOrder.length
      ∧ (ik, excMsg ie) ∈ (import_images ienv iOrder force).failedFiles
      ∧ excMsg ie ≠ []
      ∧ ∀ x : Str, x ≠ ik → ∀ f : Bool,
          import_single_image ienv x f
            = import_single_image { ienv with raises := fun _ => none } x f)
    ∧ ((download_images denv dOrder).downloaded.length
        + (download_images denv dOrder).failed.length = dOrder.length
      ∧ dk ∈ (download_images denv dOrder).failed
      ∧ downExcMsg dk de ≠ []
      ∧ ∀ x : Str, x ≠ dk →
          downloadClassify denv x
            = downloadClassify { denv with raises := fun _ => none } x) := by
  have hsing : import_single_image ienv ik force = (ik, false, excMsg ie) := by
    simp [import_single_image, hir]
  have hokik : importOk ienv force ik = false := by
    simp [importOk, hsing]
  have hclass : downloadClassify denv dk = false := by
    simp [downloadClassify, hdr]
  rw [import_images_eq, download_images_eq]
  refine ⟨⟨?_, ?_, ?_, ?_⟩, ?_, ?_, ?_, ?_⟩
  · simp only [List.length_map, List.length_nil, Nat.add_zero]
    exact length_filter_partition _ _
  · refine List.mem_map.mpr ⟨ik, List.mem_filter.mpr ⟨hik, ?_⟩, ?_⟩
    · simp [hokik]
    · simp [importErr, hsing]
  · simp [excMsg]
  · intro x hx f
    simp [import_single_image, hir, hx]
  · exact length_filter_partition _ _
  · exact List.mem_filter.mpr ⟨hdk, by simp [hclass]⟩
  · simp [downExcMsg]
  · intro x hx
    simp [downloadClassify, hdr, hx, download_and_save_image, pull_image,
          save_image]

theorem exception_isolation_witness :
    (raisingDownloadEnv.raises
        = fun x => if x = "bad".data then some "boom".data else none) ∧
    (raisingImportEnv.raises
        = fun x => if x = "bad.tar".data then some "boom".data else none) ∧
    "bad".data ∈ (["ok".data, "bad".data] : List Str) ∧
    "bad.tar".data ∈ (["ok.tar".data, "bad.tar".data] : List Str) ∧
    (import_images raisingImportEnv ["ok.tar".data, "bad.tar".data]
        false).imported.length
      + (import_images raisingImportEnv ["ok.tar".data, "bad.tar".data]
        false).failedFiles.length
      + (import_images raisingImportEnv ["ok.tar".data, "bad.tar".data]
        false).skipped.length = 2 ∧
    ("bad.tar".data, excMsg "boom".data)
      ∈ (import_images raisingImportEnv ["ok.tar".data, "bad.tar".data]
          false).failedFiles ∧
    excMsg "boom".data ≠ [] ∧
    "bad".data ∈ (download_images raisingDownloadEnv
        ["ok".data, "bad".data]).failed := by
  have h := exception_isolation raisingDownloadEnv raisingImportEnv
      ["ok".data, "bad".data] ["ok.tar".data, "bad.tar".data] false
      "bad".data "bad.tar".data "boom".data "boom".data rfl rfl
      (by decide) (by decide)
  exact ⟨rfl, rfl, by decide, by decide, by simpa using h.1.1, h.1.2.1,
    h.1.2.2.1, h.2.2.1⟩

/-- C8: writing a manifest for any succeeded set (the empty set
included) and reading it back yields entries whose name, file and
size_bytes fields exactly match what was written; the empty set yields
`total_images = 0` and no entries. -/
theorem manifest_round_trip (env : DownloadEnv) (downloaded : List Str)
    (genAt : Str) :
    load_manifest (manifestToJson (generate_manifest env downloaded genAt))
      = some (generate_manifest env downloaded genAt) ∧
    (generate_manifest env downloaded genAt).images.map ManifestEntry.name
      = downloaded ∧
    (generate_manifest env downloaded genAt).total_images
      = downloaded.length ∧
    (generate_manifest env [] genAt).total_images = 0 ∧
    (generate_manifest env [] genAt).images = [] := by
  refine ⟨load_manifest_roundTrip _, ?_, rfl, rfl, rfl⟩
  simp only [generate_manifest, List.map_map]
  have h : (ManifestEntry.name ∘ fun image =>
      (⟨image, tarFileName image,
        if env.fileExists (tarFileName image) then
          env.fileSize (tarFileName image) else 0⟩ : ManifestEntry))
      = fun image : Str => image := rfl
  rw [h, List.map_id']

end ConfluenceDocker
